import Mathlib

/-!
# mini_stream.c : a shallow embedding and its checked properties

The program `mem_bw_smoketest/mini_stream.c` is one function, `main`.  It is
embedded here as a pure function of its environment:

* `argv`, the invocation arguments;
* the return codes of the three `posix_memalign` calls and the (indeterminate)
  contents of the memory they hand out;
* the successive readings of the monotonic clock (`now_sec`);
* the OpenMP thread count, when the program is built with OpenMP.

Conventions.

* `size_t` and `unsigned long long` are 64 bits wide, `int` is 32 bits wide,
  `sizeof(double)` is 8 (LP64).  Unsigned arithmetic is written over `Nat` with
  an explicit `% 2^64` after every operation that can wrap.
* The array cells.  The loops of lines 34-66 are written once, over any type of
  cells that has `+`, `*` and the literals 0, 1, 2, 3.  The program runs them on
  `Dbl`, the IEEE 754 binary64 numbers: every sum and product is the exact
  result rounded to nearest, ties to even, with overflow to an infinity and
  gradual underflow (the two zeros are not told apart, NaNs carry no payload).
  The same loops on `ℚ` are the program in exact arithmetic.
* The elapsed times and the bandwidth figures are rational numbers: the
  rounding of the one subtraction and of the divisions that produce them is
  outside the model.
* An `omp parallel for` over disjoint indices is modelled by the sequential
  loop it annotates.
* `atoll` and `atoi` are the C library's; they are modelled as in glibc, where
  `atoll(s)` is `strtoll(s, NULL, 10)` and `atoi(s)` is `(int) strtol(s, NULL, 10)`.
-/

namespace MiniStream

/-! ## Machine integers -/

/-- The number of values of a 64-bit unsigned integer (`size_t`, `unsigned long long`). -/
def SIZE_MOD : Nat := 2 ^ 64

/-- The value of `sizeof(double)`. -/
def sizeof_double : Nat := 8

/-- Conversion of a signed value to `size_t`: reduction modulo `2^64`. -/
def toSizeT (v : Int) : Nat := (v % (2 ^ 64 : Int)).toNat

/-- Conversion of a `long` to `int`: the low 32 bits, read as two's complement. -/
def toInt32 (v : Int) : Int :=
  let r := v % (2 ^ 32 : Int)
  if r < 2 ^ 31 then r else r - 2 ^ 32

/-! ## The C library's number parsing -/

/-- The characters `isspace` accepts in the C locale. -/
def isSpace (ch : Char) : Bool :=
  ch == ' ' || ch == '\t' || ch == '\n' || ch == Char.ofNat 11 || ch == Char.ofNat 12 ||
    ch == '\r'

/-- The value of the longest run of decimal digits at the head of `cs`,
accumulated onto `acc`. -/
def digitsValue : List Char → Nat → Nat
  | [], acc => acc
  | ch :: cs, acc => if ch.isDigit then digitsValue cs (acc * 10 + (ch.toNat - 48)) else acc

/-- The subject sequence of `strtol` in base 10, as an integer: leading white
space is skipped, one optional sign is read, then the digits.  With no digit
the value is 0 (no conversion is performed). -/
def parseDecimal (s : String) : Int :=
  match s.toList.dropWhile isSpace with
  | '-' :: cs => - (digitsValue cs 0 : Int)
  | '+' :: cs => (digitsValue cs 0 : Int)
  | cs => (digitsValue cs 0 : Int)

/-- Saturation to the range of a 64-bit signed integer, as `strtol` and
`strtoll` do for a value out of range. -/
def clampLong (v : Int) : Int :=
  if v < -(2 ^ 63 : Int) then -(2 ^ 63 : Int)
  else if (2 ^ 63 : Int) - 1 < v then (2 ^ 63 : Int) - 1
  else v

/-- The library function `atoll`. -/
def atoll (s : String) : Int := clampLong (parseDecimal s)

/-- The library function `atoi`. -/
def atoi (s : String) : Int := toInt32 (clampLong (parseDecimal s))

/-! ## Configuration (lines 17-23) -/

/-- Line 17: `size_t mb = (argc > 1) ? (size_t)atoll(argv[1]) : 1024;` -/
def resolveMb (argv : List String) : Nat :=
  if argv.length > 1 then toSizeT (atoll (argv.getD 1 "")) else 1024

/-- Line 18: `int ntimes = (argc > 2) ? atoi(argv[2]) : 5;` -/
def resolveNtimes (argv : List String) : Int :=
  if argv.length > 2 then atoi (argv.getD 2 "") else 5

/-- Lines 21-23: the element count for a footprint of `mb` MiB. -/
def resolveN (mb : Nat) : Nat :=
  let N := (((mb * 1024) % SIZE_MOD * 1024) % SIZE_MOD) / ((3 * sizeof_double) % SIZE_MOD)
  let N := ((N / 64) * 64) % SIZE_MOD
  if N < 1000000 then 1000000 else N

/-! ## Doubles -/

/-- A value of type `double`: a finite number (one of the rationals
`m * 2^e` with `m < 2^53` and `-1074 <= e <= 971` when it comes out of an
operation), an infinity, or a NaN. -/
inductive Dbl where
  /-- A finite value. -/
  | fin (q : ℚ)
  /-- Plus infinity. -/
  | pinf
  /-- Minus infinity. -/
  | ninf
  /-- Not a number. -/
  | nan
  deriving DecidableEq

/-- The integer nearest to `n / d`, the even one of the two when `n / d` is
half way between them. -/
def roundDiv (n d : Nat) : Nat :=
  if 2 * (n % d) < d then n / d
  else if d < 2 * (n % d) then n / d + 1
  else if (n / d) % 2 = 0 then n / d else n / d + 1

/-- The integer part of the base-2 logarithm of `n / d`, for `n, d > 0`. -/
def floorLog2 (n d : Nat) : Int :=
  let k : Int := (Nat.log2 n : Int) - (Nat.log2 d : Int)
  if d * 2 ^ k.toNat ≤ n * 2 ^ (-k).toNat then k else k - 1

/-- Rounding of an exact result to a double, to nearest and ties to even.  With
`E` the exponent of the last of the 53 bits (not below `-1074`, where the
subnormal numbers start), the magnitude is rounded to a multiple of `2^E`; a
rounded magnitude of `2^1024` or more is an infinity. -/
def Dbl.round (q : ℚ) : Dbl :=
  if q = 0 then Dbl.fin 0
  else
    let n := q.num.natAbs
    let d := q.den
    let E : Int := max (floorLog2 n d - 52) (-1074)
    let m := roundDiv (n * 2 ^ (-E).toNat) (d * 2 ^ E.toNat)
    let v : ℚ := ((m * 2 ^ E.toNat : Nat) : ℚ) / ((2 ^ (-E).toNat : Nat) : ℚ)
    if ((2 ^ 1024 : Nat) : ℚ) ≤ v then (if 0 < q then Dbl.pinf else Dbl.ninf)
    else Dbl.fin (if 0 < q then v else -v)

/-- The sum of two doubles. -/
def Dbl.add : Dbl → Dbl → Dbl
  | Dbl.fin x, Dbl.fin y => Dbl.round (x + y)
  | Dbl.fin _, Dbl.pinf => Dbl.pinf
  | Dbl.fin _, Dbl.ninf => Dbl.ninf
  | Dbl.pinf, Dbl.fin _ => Dbl.pinf
  | Dbl.pinf, Dbl.pinf => Dbl.pinf
  | Dbl.ninf, Dbl.fin _ => Dbl.ninf
  | Dbl.ninf, Dbl.ninf => Dbl.ninf
  | _, _ => Dbl.nan

/-- The product of two doubles. -/
def Dbl.mul : Dbl → Dbl → Dbl
  | Dbl.fin x, Dbl.fin y => Dbl.round (x * y)
  | Dbl.fin x, Dbl.pinf => if x = 0 then Dbl.nan else if 0 < x then Dbl.pinf else Dbl.ninf
  | Dbl.fin x, Dbl.ninf => if x = 0 then Dbl.nan else if 0 < x then Dbl.ninf else Dbl.pinf
  | Dbl.pinf, Dbl.fin y => if y = 0 then Dbl.nan else if 0 < y then Dbl.pinf else Dbl.ninf
  | Dbl.ninf, Dbl.fin y => if y = 0 then Dbl.nan else if 0 < y then Dbl.ninf else Dbl.pinf
  | Dbl.pinf, Dbl.pinf => Dbl.pinf
  | Dbl.pinf, Dbl.ninf => Dbl.ninf
  | Dbl.ninf, Dbl.pinf => Dbl.ninf
  | Dbl.ninf, Dbl.ninf => Dbl.pinf
  | _, _ => Dbl.nan

instance : Add Dbl := ⟨Dbl.add⟩

instance : Mul Dbl := ⟨Dbl.mul⟩

/-- The literal `0.0`. -/
instance : OfNat Dbl 0 := ⟨Dbl.fin 0⟩

/-- The literal `1.0`. -/
instance : OfNat Dbl 1 := ⟨Dbl.fin 1⟩

/-- The literal `2.0`. -/
instance : OfNat Dbl 2 := ⟨Dbl.fin 2⟩

/-- The literal `3.0`. -/
instance : OfNat Dbl 3 := ⟨Dbl.fin 3⟩

/-! ## Workspace and kernels (lines 25-69) -/

/-- The sequential loop `for (i = 0; i < n; i++) body`, as a state transformer. -/
def forLoop {σ : Type} : Nat → (Nat → σ → σ) → σ → σ
  | 0, _, s => s
  | n + 1, body, s => body n (forLoop n body s)

/-- The loop `for (i = 0; i < n; i++) xs[i] = f i` on one array, where `f` does
not read `xs`: the shape every array loop of the program reduces to. -/
def fill {α : Type} (n : Nat) (f : Nat → α) (xs : List α) : List α :=
  forLoop n (fun i ys => ys.set i (f i)) xs

/-- The mutable variables of `main` once the arrays exist: the three arrays
(of cells of type `α`), the four running best times, and the number of clock
readings taken so far. -/
structure State (α : Type) where
  a : List α
  b : List α
  c : List α
  best_copy : ℚ
  best_scale : ℚ
  best_add : ℚ
  best_triad : ℚ
  calls : Nat

/-- Line 37: `const double scalar = 3.0;` -/
def scalar {α : Type} [OfNat α 3] : α := 3

/-- The value of the literal `1e99` as a double. -/
def sentinel : ℚ :=
  999999999999999967336168804116691273849533185806555472917961779471295845921727862608739868455469056

/-- Line 34: the initialization loop. -/
def initPass {α : Type} [OfNat α 0] [OfNat α 1] [OfNat α 2] (N : Nat) (s : State α) : State α :=
  forLoop N (fun i s => { s with a := s.a.set i 1, b := s.b.set i 2, c := s.c.set i 0 }) s

/-- Line 45: `for (i...) c[i] = a[i];` -/
def copyPass {α : Type} [OfNat α 0] (N : Nat) (s : State α) : State α :=
  forLoop N (fun i s => { s with c := s.c.set i (s.a.getD i 0) }) s

/-- Line 52: `for (i...) b[i] = scalar * c[i];` -/
def scalePass {α : Type} [Mul α] [OfNat α 0] [OfNat α 3] (N : Nat) (s : State α) : State α :=
  forLoop N (fun i s => { s with b := s.b.set i (scalar * s.c.getD i 0) }) s

/-- Line 59: `for (i...) c[i] = a[i] + b[i];` -/
def addPass {α : Type} [Add α] [OfNat α 0] (N : Nat) (s : State α) : State α :=
  forLoop N (fun i s => { s with c := s.c.set i (s.a.getD i 0 + s.b.getD i 0) }) s

/-- Line 66: `for (i...) a[i] = b[i] + scalar * c[i];` -/
def triadPass {α : Type} [Add α] [Mul α] [OfNat α 0] [OfNat α 3] (N : Nat) (s : State α) :
    State α :=
  forLoop N (fun i s => { s with a := s.a.set i (s.b.getD i 0 + scalar * s.c.getD i 0) }) s

/-- One call of `now_sec`: the next reading of the clock. -/
def now_sec {α : Type} (clock : Nat → ℚ) (s : State α) : ℚ × State α :=
  (clock s.calls, { s with calls := s.calls + 1 })

/-- Lines 43-47: the timed Copy block. -/
def copyBlock {α : Type} [OfNat α 0] (clock : Nat → ℚ) (N : Nat) (s : State α) : State α :=
  let (t0, s) := now_sec clock s
  let s := copyPass N s
  let (t1, s) := now_sec clock s
  if t1 - t0 < s.best_copy then { s with best_copy := t1 - t0 } else s

/-- Lines 50-54: the timed Scale block. -/
def scaleBlock {α : Type} [Mul α] [OfNat α 0] [OfNat α 3] (clock : Nat → ℚ) (N : Nat)
    (s : State α) : State α :=
  let (t0, s) := now_sec clock s
  let s := scalePass N s
  let (t1, s) := now_sec clock s
  if t1 - t0 < s.best_scale then { s with best_scale := t1 - t0 } else s

/-- Lines 57-61: the timed Add block. -/
def addBlock {α : Type} [Add α] [OfNat α 0] (clock : Nat → ℚ) (N : Nat) (s : State α) :
    State α :=
  let (t0, s) := now_sec clock s
  let s := addPass N s
  let (t1, s) := now_sec clock s
  if t1 - t0 < s.best_add then { s with best_add := t1 - t0 } else s

/-- Lines 64-68: the timed Triad block. -/
def triadBlock {α : Type} [Add α] [Mul α] [OfNat α 0] [OfNat α 3] (clock : Nat → ℚ) (N : Nat)
    (s : State α) : State α :=
  let (t0, s) := now_sec clock s
  let s := triadPass N s
  let (t1, s) := now_sec clock s
  if t1 - t0 < s.best_triad then { s with best_triad := t1 - t0 } else s

/-- Lines 40-68: the body of the trial loop. -/
def trial {α : Type} [Add α] [Mul α] [OfNat α 0] [OfNat α 3] (clock : Nat → ℚ) (N : Nat)
    (s : State α) : State α :=
  triadBlock clock N (addBlock clock N (scaleBlock clock N (copyBlock clock N s)))

/-- Lines 39-69: `for (int t = 0; t < ntimes; t++)`, run `n` times. -/
def trials {α : Type} [Add α] [Mul α] [OfNat α 0] [OfNat α 3] (clock : Nat → ℚ) (N : Nat)
    (n : Nat) (s : State α) : State α :=
  forLoop n (fun _ s => trial clock N s) s

/-- The elapsed time `t1 - t0` that trial `j` (counted from 0) measures for the
kernel number `k` (0 Copy, 1 Scale, 2 Add, 3 Triad), the clock being first read
by trial 0. -/
def elapsed (clock : Nat → ℚ) (j k : Nat) : ℚ :=
  clock (8 * j + 2 * k + 1) - clock (8 * j + 2 * k)

/-- The four running best times of a state, by kernel number. -/
def State.best {α : Type} (s : State α) : Nat → ℚ
  | 0 => s.best_copy
  | 1 => s.best_scale
  | 2 => s.best_add
  | _ => s.best_triad

/-! ## The program -/

/-- What `main` receives from outside, the cells of fresh memory being of type `α`. -/
structure Env (α : Type) where
  /-- The invocation arguments, program name included; `argc` is the length. -/
  argv : List String
  /-- Return code of the first `posix_memalign` (0 is success). -/
  rcA : Nat
  /-- Return code of the second `posix_memalign`. -/
  rcB : Nat
  /-- Return code of the third `posix_memalign`. -/
  rcC : Nat
  /-- Indeterminate contents of the block handed out for `a`. -/
  memA : Nat → α
  /-- Indeterminate contents of the block handed out for `b`. -/
  memB : Nat → α
  /-- Indeterminate contents of the block handed out for `c`. -/
  memC : Nat → α
  /-- Successive readings of `CLOCK_MONOTONIC`, in seconds. -/
  clock : Nat → ℚ
  /-- With OpenMP, the value of `omp_get_num_threads()`; `none` without OpenMP. -/
  omp : Option Nat

/-- One `printf` of the report: the format and its arguments. -/
inductive OutLine where
  /-- Line 82: `Mini-STREAM (footprint=%zu MiB, ntimes=%d, threads=%d)`. -/
  | header (mb : Nat) (ntimes : Int) (threads : Nat)
  /-- Lines 83-86: a label and `%.1f MB/s`. -/
  | rate (label : String) (value : ℚ)
  deriving DecidableEq

/-- What `main` does that is visible outside. -/
structure Outcome where
  /-- The exit status. -/
  status : Int
  /-- What was written to standard output. -/
  out : List OutLine
  /-- What was written to the error stream. -/
  err : List String
  /-- How many times the clock was read. -/
  clockReads : Nat

/-- Lines 25-36: the variables once the three allocations have succeeded,
before the initialization loop. -/
def allocated {α : Type} (env : Env α) (N : Nat) : State α :=
  { a := (List.range N).map env.memA
    b := (List.range N).map env.memB
    c := (List.range N).map env.memC
    best_copy := sentinel
    best_scale := sentinel
    best_add := sentinel
    best_triad := sentinel
    calls := 0 }

/-- Lines 33-34: the variables after the initialization loop, before the first trial. -/
def workspace {α : Type} [OfNat α 0] [OfNat α 1] [OfNat α 2] (env : Env α) (N : Nat) :
    State α :=
  initPass N (allocated env N)

/-- Lines 71-72: the bandwidth of Copy and of Scale.  Division by a zero best
time, infinite in the program, is 0 here: the model is meant for `best ≠ 0`. -/
def bw16 (N : Nat) (best : ℚ) : ℚ := (16 * (N : ℚ)) / best / (1024 * 1024)

/-- Lines 73-74: the bandwidth of Add and of Triad (same remark on `best = 0`). -/
def bw24 (N : Nat) (best : ℚ) : ℚ := (24 * (N : ℚ)) / best / (1024 * 1024)

/-- Lines 82-86: the report. -/
def report {α : Type} (mb : Nat) (ntimes : Int) (threads : Nat) (N : Nat) (s : State α) :
    List OutLine :=
  [ OutLine.header mb ntimes threads,
    OutLine.rate "Copy:  " (bw16 N s.best_copy),
    OutLine.rate "Scale: " (bw16 N s.best_scale),
    OutLine.rate "Add:   " (bw24 N s.best_add),
    OutLine.rate "Triad: " (bw24 N s.best_triad) ]

/-- The function `main`; its arrays are arrays of doubles. -/
def main (env : Env Dbl) : Outcome :=
  let mb := resolveMb env.argv
  let ntimes := resolveNtimes env.argv
  let N := resolveN mb
  if env.rcA ≠ 0 ∨ env.rcB ≠ 0 ∨ env.rcC ≠ 0 then
    { status := 1, out := [], err := ["alloc failed\n"], clockReads := 0 }
  else
    let s := workspace env N
    let s := trials env.clock N ntimes.toNat s
    let threads := env.omp.getD 1
    { status := 0, out := report mb ntimes threads N s, err := [], clockReads := s.calls }

/-! ## Vocabulary of the statements -/

/-- True when `cs` does not start with a decimal digit. -/
def startsNoDigit : List Char → Bool
  | [] => true
  | ch :: _ => !ch.isDigit

/-- A string that is not a number: after leading white space and one optional
sign, no decimal digit follows. -/
def unparsable (s : String) : Bool :=
  match s.toList.dropWhile isSpace with
  | '-' :: cs => startsNoDigit cs
  | '+' :: cs => startsNoDigit cs
  | cs => startsNoDigit cs

/-- The arrays the loop of kernel `k` reads (lines 45, 52, 59, 66). -/
def kernelReads : Nat → List String
  | 0 => ["a"]
  | 1 => ["c"]
  | 2 => ["a", "b"]
  | _ => ["b", "c"]

/-- The arrays the loop of kernel `k` writes (lines 45, 52, 59, 66). -/
def kernelWrites : Nat → List String
  | 0 => ["c"]
  | 1 => ["b"]
  | 2 => ["c"]
  | _ => ["a"]

/-- Bytes moved per element by kernel `k`: one double per array read or written. -/
def bytesPerElement (k : Nat) : Nat :=
  sizeof_double * ((kernelReads k).length + (kernelWrites k).length)

/-- The labels of the four bandwidth lines of the report, by kernel number. -/
def kernelLabel : Nat → String
  | 0 => "Copy:  "
  | 1 => "Scale: "
  | 2 => "Add:   "
  | _ => "Triad: "

/-- A sample environment: footprint 64, 3 trials, the given allocation return
codes, zeroed fresh memory, a clock that advances by one second per reading. -/
def sampleEnv {α : Type} [OfNat α 0] (rcA rcB rcC : Nat) : Env α :=
  { argv := ["mini_stream", "64", "3"]
    rcA := rcA
    rcB := rcB
    rcC := rcC
    memA := fun _ => 0
    memB := fun _ => 0
    memC := fun _ => 0
    clock := fun n => (n : ℚ)
    omp := none }

/-- A sample state: the given arrays, the best times at the sentinel, no clock
reading taken. -/
def sampleState {α : Type} (a b c : List α) : State α :=
  { a := a
    b := b
    c := c
    best_copy := sentinel
    best_scale := sentinel
    best_add := sentinel
    best_triad := sentinel
    calls := 0 }

/-! ## The configuration resolver -/

example : resolveN 64 = 2796160 := by decide
example : resolveN 0 = 1000000 := by decide
example : resolveMb ["prog", "abc"] = 0 := by decide
example : resolveMb ["prog", " -1"] = 2 ^ 64 - 1 := by decide
example : resolveMb ["prog", "64x"] = 64 := by decide
example : resolveNtimes ["prog", "64", "x3"] = 0 := by decide
example : resolveNtimes ["prog", "64", "4294967297"] = 1 := by decide

/-- The unsigned product `mb * 1024ULL * 1024ULL` is `mb * 2^20` modulo `2^64`. -/
theorem target_bytes_wrap (mb : Nat) :
    ((mb * 1024) % SIZE_MOD * 1024) % SIZE_MOD = (mb * 1048576) % 2 ^ 64 := by
  unfold SIZE_MOD
  omega

/-- The element count, with the wrap-around of the byte count the only modular step left. -/
theorem resolveN_eq (mb : Nat) :
    resolveN mb = max 1000000 ((mb * 1048576) % 2 ^ 64 / 24 / 64 * 64) := by
  unfold resolveN
  simp only [target_bytes_wrap]
  unfold SIZE_MOD sizeof_double
  have h1 : (3 * 8) % 2 ^ 64 = 24 := by norm_num
  have h2 : ((mb * 1048576) % 2 ^ 64 / 24 / 64 * 64) % 2 ^ 64
      = (mb * 1048576) % 2 ^ 64 / 24 / 64 * 64 := by omega
  rw [h1, h2]
  split <;> omega

/-- C1: when the byte count `mb*1024*1024` fits in 64 bits, the resolved element
count is `max(1000000, floor(floor(mb*1024*1024 / 24) / 64) * 64)`; footprint 64
resolves to 2796160. -/
theorem resolveN_exact (mb : Nat) (h : mb * 1024 * 1024 < 2 ^ 64) :
    resolveN mb = max 1000000 (mb * 1024 * 1024 / 24 / 64 * 64) ∧ resolveN 64 = 2796160 := by
  refine ⟨?_, by decide⟩
  rw [resolveN_eq]
  have h3 : (mb * 1048576) % 2 ^ 64 = mb * 1024 * 1024 := by omega
  rw [h3]

theorem resolveN_exact_witness :
    64 * 1024 * 1024 < 2 ^ 64 ∧
      (resolveN 64 = max 1000000 (64 * 1024 * 1024 / 24 / 64 * 64) ∧ resolveN 64 = 2796160) :=
  ⟨by decide, resolveN_exact 64 (by decide)⟩

/-- C2: for every footprint value, wrapped byte counts included, the resolved
element count is a multiple of 64 and at least 1000000; footprint 0 resolves to
exactly 1000000.  The footprint read from any argument list is such a value. -/
theorem resolveN_aligned_floor (mb : Nat) (argv : List String) :
    64 ∣ resolveN mb ∧ 1000000 ≤ resolveN mb ∧ resolveN 0 = 1000000 ∧
      resolveMb argv < 2 ^ 64 ∧ 64 ∣ resolveN (resolveMb argv) ∧
      1000000 ≤ resolveN (resolveMb argv) := by
  have key : ∀ m : Nat, 64 ∣ resolveN m ∧ 1000000 ≤ resolveN m := by
    intro m
    rw [resolveN_eq]
    refine ⟨?_, le_max_left _ _⟩
    rcases le_total 1000000 ((m * 1048576) % 2 ^ 64 / 24 / 64 * 64) with hle | hle
    · rw [max_eq_right hle]
      exact Dvd.intro_left _ rfl
    · rw [max_eq_left hle]
      exact ⟨15625, by norm_num⟩
  refine ⟨(key mb).1, (key mb).2, by decide, ?_, (key _).1, (key _).2⟩
  unfold resolveMb toSizeT
  split
  · have := Int.emod_lt_of_pos (atoll (argv.getD 1 "")) (by norm_num : (0 : Int) < 2 ^ 64)
    have h0 := Int.emod_nonneg (atoll (argv.getD 1 "")) (by norm_num : (2 ^ 64 : Int) ≠ 0)
    omega
  · norm_num

/-- C10: for `23 <= mb < 2^44` the floor is not applied and the count is the
largest multiple of 64 with `24*N <= mb*1048576` (so `mb*1048576 < 24*N + 1536`);
for `mb <= 22` the floor applies, the count is 1000000 and the three arrays take
24000000 bytes, more than the `mb*1048576` requested. -/
theorem footprint_budget (mb : Nat) :
    (23 ≤ mb → mb < 2 ^ 44 →
      resolveN mb = mb * 1048576 / 24 / 64 * 64 ∧ 1000000 ≤ mb * 1048576 / 24 / 64 * 64 ∧
      64 ∣ resolveN mb ∧
      24 * resolveN mb ≤ mb * 1048576 ∧ mb * 1048576 < 24 * resolveN mb + 1536 ∧
      ∀ M : Nat, 64 ∣ M → 24 * M ≤ mb * 1048576 → M ≤ resolveN mb) ∧
    (mb ≤ 22 →
      resolveN mb = 1000000 ∧ 3 * (resolveN mb * sizeof_double) = 24000000 ∧
      mb * 1048576 < 3 * (resolveN mb * sizeof_double)) := by
  constructor
  · intro h23 h44
    have h3 : (mb * 1048576) % 2 ^ 64 = mb * 1048576 := by omega
    have hN : resolveN mb = mb * 1048576 / 24 / 64 * 64 := by
      rw [resolveN_eq, h3]
      omega
    rw [hN]
    refine ⟨rfl, by omega, Dvd.intro_left _ rfl, by omega, by omega, ?_⟩
    rintro M ⟨k, rfl⟩ hM
    omega
  · intro h22
    have h3 : (mb * 1048576) % 2 ^ 64 = mb * 1048576 := by omega
    have hN : resolveN mb = 1000000 := by
      rw [resolveN_eq, h3]
      omega
    rw [hN]
    unfold sizeof_double
    omega

theorem footprint_budget_witness :
    (resolveN 23 = 23 * 1048576 / 24 / 64 * 64 ∧ 1000000 ≤ 23 * 1048576 / 24 / 64 * 64 ∧
      64 ∣ resolveN 23 ∧
      24 * resolveN 23 ≤ 23 * 1048576 ∧ 23 * 1048576 < 24 * resolveN 23 + 1536 ∧
      ∀ M : Nat, 64 ∣ M → 24 * M ≤ 23 * 1048576 → M ≤ resolveN 23) ∧
    (resolveN 22 = 1000000 ∧ 3 * (resolveN 22 * sizeof_double) = 24000000 ∧
      22 * 1048576 < 3 * (resolveN 22 * sizeof_double)) :=
  ⟨(footprint_budget 23).1 (by decide) (by decide), (footprint_budget 22).2 (by decide)⟩

/-! ## Array loops

The lemmas of this part hold for every type of cells: for `ℚ` (exact
arithmetic) and for `Dbl` (the program's doubles). -/

theorem fill_length {α : Type} (n : Nat) (f : Nat → α) (xs : List α) :
    (fill n f xs).length = xs.length := by
  induction n with
  | zero => rfl
  | succ k ih =>
    show ((fill k f xs).set k (f k)).length = xs.length
    rw [List.length_set, ih]

/-- After `n` iterations the first `n` cells hold `f`, the others are untouched. -/
theorem fill_getElem? {α : Type} (n : Nat) (f : Nat → α) (xs : List α) (i : Nat) :
    (fill n f xs)[i]? = if i < n ∧ i < xs.length then some (f i) else xs[i]? := by
  induction n with
  | zero => simp [fill, forLoop]
  | succ k ih =>
    show ((fill k f xs).set k (f k))[i]? = _
    rw [List.getElem?_set, fill_length, ih]
    by_cases hki : k = i
    · subst hki
      by_cases hk : k < xs.length
      · simp [hk]
      · have : xs[k]? = none := List.getElem?_eq_none (by omega)
        simp [hk, this]
    · have h1 : (i < k + 1 ∧ i < xs.length) ↔ (i < k ∧ i < xs.length) := by omega
      simp only [hki, if_false, h1]

theorem fill_getElem?_lt {α : Type} {n : Nat} (f : Nat → α) {xs : List α} {i : Nat}
    (hx : xs.length = n) (hi : i < n) : (fill n f xs)[i]? = some (f i) := by
  rw [fill_getElem?, if_pos ⟨hi, by omega⟩]

theorem getD_of_getElem? {α : Type} [OfNat α 0] {xs : List α} {i : Nat} {x : α}
    (h : xs[i]? = some x) :
    xs.getD i 0 = x := by
  rw [List.getD_eq_getElem?_getD, h]
  rfl

/-- A full pass that stores `xs[i]` itself copies the array. -/
theorem fill_getD_self {α : Type} [OfNat α 0] {n : Nat} (xs ys : List α) (hx : xs.length = n)
    (hy : ys.length = n) :
    fill n (fun i => xs.getD i 0) ys = xs := by
  apply List.ext_getElem?
  intro i
  rw [fill_getElem?]
  by_cases hi : i < n
  · have hx1 : i < xs.length := by omega
    rw [if_pos ⟨hi, by omega⟩, List.getD_eq_getElem _ _ hx1, List.getElem?_eq_getElem hx1]
  · have hn : ¬ (i < n ∧ i < ys.length) := fun h => hi h.1
    rw [if_neg hn, List.getElem?_eq_none (by omega), List.getElem?_eq_none (by omega)]

theorem initPass_eq {α : Type} [OfNat α 0] [OfNat α 1] [OfNat α 2] (N : Nat) (s : State α) :
    initPass N s =
      { s with a := fill N (fun _ => 1) s.a, b := fill N (fun _ => 2) s.b,
               c := fill N (fun _ => 0) s.c } := by
  unfold initPass
  induction N with
  | zero => rfl
  | succ k ih =>
    show (fun i s => ({ s with a := s.a.set i 1, b := s.b.set i 2, c := s.c.set i 0 } : State α)) k
      (forLoop k _ s) = _
    rw [ih]
    rfl

theorem copyPass_eq {α : Type} [OfNat α 0] (N : Nat) (s : State α) :
    copyPass N s = { s with c := fill N (fun i => s.a.getD i 0) s.c } := by
  unfold copyPass
  induction N with
  | zero => rfl
  | succ k ih =>
    show (fun i s => ({ s with c := s.c.set i (s.a.getD i 0) } : State α)) k (forLoop k _ s) = _
    rw [ih]
    rfl

theorem scalePass_eq {α : Type} [Mul α] [OfNat α 0] [OfNat α 3] (N : Nat) (s : State α) :
    scalePass N s = { s with b := fill N (fun i => scalar * s.c.getD i 0) s.b } := by
  unfold scalePass
  induction N with
  | zero => rfl
  | succ k ih =>
    show (fun i s => ({ s with b := s.b.set i (scalar * s.c.getD i 0) } : State α)) k
      (forLoop k _ s) = _
    rw [ih]
    rfl

theorem addPass_eq {α : Type} [Add α] [OfNat α 0] (N : Nat) (s : State α) :
    addPass N s = { s with c := fill N (fun i => s.a.getD i 0 + s.b.getD i 0) s.c } := by
  unfold addPass
  induction N with
  | zero => rfl
  | succ k ih =>
    show (fun i s => ({ s with c := s.c.set i (s.a.getD i 0 + s.b.getD i 0) } : State α)) k
      (forLoop k _ s) = _
    rw [ih]
    rfl

theorem triadPass_eq {α : Type} [Add α] [Mul α] [OfNat α 0] [OfNat α 3] (N : Nat) (s : State α) :
    triadPass N s = { s with a := fill N (fun i => s.b.getD i 0 + scalar * s.c.getD i 0) s.a } := by
  unfold triadPass
  induction N with
  | zero => rfl
  | succ k ih =>
    show (fun i s => ({ s with a := s.a.set i (s.b.getD i 0 + scalar * s.c.getD i 0) } : State α)) k
      (forLoop k _ s) = _
    rw [ih]
    rfl

/-! ## Timed blocks -/

theorem copyBlock_eq {α : Type} [OfNat α 0] (clock : Nat → ℚ) (N : Nat) (s : State α) :
    copyBlock clock N s =
      { s with c := fill N (fun i => s.a.getD i 0) s.c
               calls := s.calls + 1 + 1
               best_copy := if clock (s.calls + 1) - clock s.calls < s.best_copy
                 then clock (s.calls + 1) - clock s.calls else s.best_copy } := by
  unfold copyBlock now_sec
  simp only [copyPass_eq]
  split <;> rfl

theorem scaleBlock_eq {α : Type} [Mul α] [OfNat α 0] [OfNat α 3] (clock : Nat → ℚ) (N : Nat)
    (s : State α) :
    scaleBlock clock N s =
      { s with b := fill N (fun i => scalar * s.c.getD i 0) s.b
               calls := s.calls + 1 + 1
               best_scale := if clock (s.calls + 1) - clock s.calls < s.best_scale
                 then clock (s.calls + 1) - clock s.calls else s.best_scale } := by
  unfold scaleBlock now_sec
  simp only [scalePass_eq]
  split <;> rfl

theorem addBlock_eq {α : Type} [Add α] [OfNat α 0] (clock : Nat → ℚ) (N : Nat) (s : State α) :
    addBlock clock N s =
      { s with c := fill N (fun i => s.a.getD i 0 + s.b.getD i 0) s.c
               calls := s.calls + 1 + 1
               best_add := if clock (s.calls + 1) - clock s.calls < s.best_add
                 then clock (s.calls + 1) - clock s.calls else s.best_add } := by
  unfold addBlock now_sec
  simp only [addPass_eq]
  split <;> rfl

theorem triadBlock_eq {α : Type} [Add α] [Mul α] [OfNat α 0] [OfNat α 3] (clock : Nat → ℚ)
    (N : Nat) (s : State α) :
    triadBlock clock N s =
      { s with a := fill N (fun i => s.b.getD i 0 + scalar * s.c.getD i 0) s.a
               calls := s.calls + 1 + 1
               best_triad := if clock (s.calls + 1) - clock s.calls < s.best_triad
                 then clock (s.calls + 1) - clock s.calls else s.best_triad } := by
  unfold triadBlock now_sec
  simp only [triadPass_eq]
  split <;> rfl

/-! ## One trial -/

/-- The arrays after one trial, when the three arrays have length `N`. -/
theorem trial_arrays_eq {α : Type} [Add α] [Mul α] [OfNat α 0] [OfNat α 3] (clock : Nat → ℚ)
    (N : Nat) (s : State α)
    (ha : s.a.length = N) (hc : s.c.length = N) :
    (trial clock N s).b = fill N (fun i => scalar * s.a.getD i 0) s.b ∧
    (trial clock N s).c =
      fill N (fun i => s.a.getD i 0 + (trial clock N s).b.getD i 0) s.a ∧
    (trial clock N s).a =
      fill N (fun i => (trial clock N s).b.getD i 0 + scalar * (trial clock N s).c.getD i 0)
        s.a := by
  simp only [trial, copyBlock_eq, scaleBlock_eq, addBlock_eq, triadBlock_eq,
    fill_getD_self s.a s.c ha hc]
  exact ⟨trivial, trivial, trivial⟩

theorem trial_length {α : Type} [Add α] [Mul α] [OfNat α 0] [OfNat α 3] (clock : Nat → ℚ)
    (N : Nat) (s : State α)
    (ha : s.a.length = N) (hb : s.b.length = N) (hc : s.c.length = N) :
    (trial clock N s).a.length = N ∧ (trial clock N s).b.length = N ∧
      (trial clock N s).c.length = N := by
  obtain ⟨h1, h2, h3⟩ := trial_arrays_eq clock N s ha hc
  rw [h3, h2, h1]
  simp only [fill_length]
  exact ⟨ha, hb, ha⟩

/-- The cells of index `i` after one trial, from the cell `a[i]` before it. -/
theorem trial_index {α : Type} [Add α] [Mul α] [OfNat α 0] [OfNat α 3] (clock : Nat → ℚ) (N : Nat)
    (s : State α)
    (ha : s.a.length = N) (hb : s.b.length = N) (hc : s.c.length = N)
    (i : Nat) (hi : i < N) (x : α) (hx : s.a[i]? = some x) :
    (trial clock N s).b[i]? = some (3 * x) ∧
    (trial clock N s).c[i]? = some (x + 3 * x) ∧
    (trial clock N s).a[i]? = some (3 * x + 3 * (x + 3 * x)) := by
  obtain ⟨h1, h2, h3⟩ := trial_arrays_eq clock N s ha hc
  have hB : (trial clock N s).b[i]? = some (3 * x) := by
    rw [h1, fill_getElem?_lt _ hb hi, getD_of_getElem? hx]
    rfl
  have hC : (trial clock N s).c[i]? = some (x + 3 * x) := by
    rw [h2, fill_getElem?_lt _ ha hi, getD_of_getElem? hx, getD_of_getElem? hB]
  have hA : (trial clock N s).a[i]? = some (3 * x + 3 * (x + 3 * x)) := by
    rw [h3, fill_getElem?_lt _ ha hi, getD_of_getElem? hB, getD_of_getElem? hC]
    rfl
  exact ⟨hB, hC, hA⟩

theorem trial_calls {α : Type} [Add α] [Mul α] [OfNat α 0] [OfNat α 3] (clock : Nat → ℚ) (N : Nat)
    (s : State α) :
    (trial clock N s).calls = s.calls + 8 := by
  simp only [trial, copyBlock_eq, scaleBlock_eq, addBlock_eq, triadBlock_eq]

/-- The four best times after one trial: each is the smaller of the old best
and of the time just measured. -/
theorem trial_best {α : Type} [Add α] [Mul α] [OfNat α 0] [OfNat α 3] (clock : Nat → ℚ) (N : Nat)
    (s : State α) (k : Nat) (hk : k < 4) :
    (trial clock N s).best k =
      if clock (s.calls + 2 * k + 1) - clock (s.calls + 2 * k) < s.best k
      then clock (s.calls + 2 * k + 1) - clock (s.calls + 2 * k) else s.best k := by
  have h4 : k = 0 ∨ k = 1 ∨ k = 2 ∨ k = 3 := by omega
  rcases h4 with rfl | rfl | rfl | rfl
  all_goals
    simp only [State.best, trial, copyBlock_eq, scaleBlock_eq, addBlock_eq, triadBlock_eq]
    try rfl

/-! ## The workspace before the first trial -/

theorem workspace_eq {α : Type} [OfNat α 0] [OfNat α 1] [OfNat α 2] (env : Env α) (N : Nat) :
    workspace env N =
      { allocated env N with
        a := fill N (fun _ => 1) ((List.range N).map env.memA)
        b := fill N (fun _ => 2) ((List.range N).map env.memB)
        c := fill N (fun _ => 0) ((List.range N).map env.memC) } := by
  unfold workspace
  rw [initPass_eq]
  rfl

theorem workspace_length {α : Type} [OfNat α 0] [OfNat α 1] [OfNat α 2] (env : Env α) (N : Nat) :
    (workspace env N).a.length = N ∧ (workspace env N).b.length = N ∧
      (workspace env N).c.length = N := by
  rw [workspace_eq]
  simp only [fill_length, List.length_map, List.length_range]
  exact ⟨trivial, trivial, trivial⟩

theorem workspace_index {α : Type} [OfNat α 0] [OfNat α 1] [OfNat α 2] (env : Env α) (N i : Nat)
    (hi : i < N) :
    (workspace env N).a[i]? = some 1 ∧ (workspace env N).b[i]? = some 2 ∧
      (workspace env N).c[i]? = some 0 := by
  rw [workspace_eq]
  have hl : ∀ f : Nat → α, ((List.range N).map f).length = N := by
    intro f
    rw [List.length_map, List.length_range]
  exact ⟨fill_getElem?_lt _ (hl _) hi, fill_getElem?_lt _ (hl _) hi,
    fill_getElem?_lt _ (hl _) hi⟩

theorem workspace_timing {α : Type} [OfNat α 0] [OfNat α 1] [OfNat α 2] (env : Env α) (N : Nat) :
    (workspace env N).calls = 0 ∧ ∀ k, (workspace env N).best k = sentinel := by
  rw [workspace_eq]
  refine ⟨rfl, fun k => ?_⟩
  unfold State.best
  split <;> rfl

/-! ## The trial loop -/

theorem trials_succ {α : Type} [Add α] [Mul α] [OfNat α 0] [OfNat α 3] (clock : Nat → ℚ)
    (N n : Nat) (s : State α) :
    trials clock N (n + 1) s = trial clock N (trials clock N n s) := rfl

theorem trials_calls {α : Type} [Add α] [Mul α] [OfNat α 0] [OfNat α 3] (clock : Nat → ℚ)
    (N n : Nat) (s : State α) :
    (trials clock N n s).calls = s.calls + 8 * n := by
  induction n with
  | zero => rfl
  | succ k ih =>
    rw [trials_succ, trial_calls, ih]
    omega

/-- The update of a best time by trial `n`, for a loop entered with no clock reading taken. -/
theorem trials_best_succ {α : Type} [Add α] [Mul α] [OfNat α 0] [OfNat α 3] (clock : Nat → ℚ)
    (N n : Nat) (s : State α) (h0 : s.calls = 0)
    (k : Nat) (hk : k < 4) :
    (trials clock N (n + 1) s).best k =
      if elapsed clock n k < (trials clock N n s).best k then elapsed clock n k
      else (trials clock N n s).best k := by
  rw [trials_succ, trial_best _ _ _ _ hk, trials_calls, h0]
  unfold elapsed
  rw [Nat.zero_add]

theorem trials_best_le {α : Type} [Add α] [Mul α] [OfNat α 0] [OfNat α 3] (clock : Nat → ℚ)
    (N n : Nat) (s : State α) (h0 : s.calls = 0)
    (k : Nat) (hk : k < 4) :
    (trials clock N (n + 1) s).best k ≤ (trials clock N n s).best k ∧
      (trials clock N (n + 1) s).best k ≤ elapsed clock n k := by
  rw [trials_best_succ clock N n s h0 k hk]
  split
  · next h => exact ⟨le_of_lt h, le_refl _⟩
  · next h => exact ⟨le_refl _, not_lt.mp h⟩


/-- C8: after the initialization loop and before the first trial the three
arrays have length `N` and every index `i < N` has `A[i] = 1.0`, `B[i] = 2.0`,
`C[i] = 0.0`, whatever the fresh memory held.  It holds for every type of
cells; for the program's doubles `1`, `2`, `0` are `Dbl.fin 1`, `Dbl.fin 2`,
`Dbl.fin 0`. -/
theorem init_values {α : Type} [OfNat α 0] [OfNat α 1] [OfNat α 2] (env : Env α) (N i : Nat)
    (hi : i < N) :
    (workspace env N).a.length = N ∧ (workspace env N).b.length = N ∧
    (workspace env N).c.length = N ∧
    (workspace env N).a[i]? = some 1 ∧ (workspace env N).b[i]? = some 2 ∧
    (workspace env N).c[i]? = some 0 := by
  obtain ⟨h1, h2, h3⟩ := workspace_length env N
  obtain ⟨h4, h5, h6⟩ := workspace_index env N i hi
  exact ⟨h1, h2, h3, h4, h5, h6⟩

theorem init_values_witness :
    1 < 3 ∧
    ((workspace (sampleEnv 0 0 0 : Env Dbl) 3).a.length = 3 ∧
    (workspace (sampleEnv 0 0 0 : Env Dbl) 3).b.length = 3 ∧
    (workspace (sampleEnv 0 0 0 : Env Dbl) 3).c.length = 3 ∧
    (workspace (sampleEnv 0 0 0 : Env Dbl) 3).a[1]? = some (Dbl.fin 1) ∧
    (workspace (sampleEnv 0 0 0 : Env Dbl) 3).b[1]? = some (Dbl.fin 2) ∧
    (workspace (sampleEnv 0 0 0 : Env Dbl) 3).c[1]? = some (Dbl.fin 0)) :=
  ⟨by decide, init_values (sampleEnv 0 0 0 : Env Dbl) 3 1 (by decide)⟩

/-- C3: one trial (Copy, Scale, Add, Triad) on arrays of length `N`.  The `C`
left by Copy is the pre-trial `A`; after the trial the arrays still have length
`N` and every index `i < N` has `B'[i] = 3*A[i]`, `C'[i] = A[i] + B'[i]` and
`A'[i] = B'[i] + 3*C'[i]` with `A` the pre-trial array; and a trial started from
any other `B`, `C` (and clock) of the same `A` ends with the same three arrays.
It holds for every type of cells: with `ℚ` these are the equations in exact
arithmetic, with `Dbl` they are the equations between the program's doubles,
`*` and `+` being the rounded operations. -/
theorem trial_spec {α : Type} [Add α] [Mul α] [OfNat α 0] [OfNat α 3] (clock clock2 : Nat → ℚ)
    (N : Nat) (s s2 : State α)
    (ha : s.a.length = N) (hb : s.b.length = N) (hc : s.c.length = N)
    (ha2 : s2.a = s.a) (hb2 : s2.b.length = N) (hc2 : s2.c.length = N) :
    (copyBlock clock N s).c = s.a ∧ (copyPass N s).c = s.a ∧
    (trial clock N s).a.length = N ∧ (trial clock N s).b.length = N ∧
    (trial clock N s).c.length = N ∧
    (∀ i, i < N → ∃ x y z w : α,
      s.a[i]? = some x ∧ (trial clock N s).b[i]? = some y ∧
      (trial clock N s).c[i]? = some z ∧ (trial clock N s).a[i]? = some w ∧
      y = 3 * x ∧ z = x + y ∧ w = y + 3 * z) ∧
    (trial clock2 N s2).a = (trial clock N s).a ∧
    (trial clock2 N s2).b = (trial clock N s).b ∧
    (trial clock2 N s2).c = (trial clock N s).c := by
  obtain ⟨l1, l2, l3⟩ := trial_length clock N s ha hb hc
  have ha' : s2.a.length = N := by rw [ha2]; exact ha
  have hidx : ∀ i, i < N → ∃ x y z w : α,
      s.a[i]? = some x ∧ (trial clock N s).b[i]? = some y ∧
      (trial clock N s).c[i]? = some z ∧ (trial clock N s).a[i]? = some w ∧
      y = 3 * x ∧ z = x + y ∧ w = y + 3 * z := by
    intro i hi
    obtain ⟨x, hx⟩ : ∃ x, s.a[i]? = some x := ⟨_, List.getElem?_eq_getElem (by omega)⟩
    obtain ⟨hB, hC, hA⟩ := trial_index clock N s ha hb hc i hi _ hx
    exact ⟨_, _, _, _, hx, hB, hC, hA, rfl, rfl, rfl⟩
  have hsame : ∀ i : Nat, ((trial clock2 N s2).a[i]? = (trial clock N s).a[i]? ∧
      (trial clock2 N s2).b[i]? = (trial clock N s).b[i]? ∧
      (trial clock2 N s2).c[i]? = (trial clock N s).c[i]?) := by
    intro i
    by_cases hi : i < N
    · obtain ⟨x, hx⟩ : ∃ x, s.a[i]? = some x := ⟨_, List.getElem?_eq_getElem (by omega)⟩
      obtain ⟨hB, hC, hA⟩ := trial_index clock N s ha hb hc i hi _ hx
      have hx2 : s2.a[i]? = some x := by rw [ha2]; exact hx
      obtain ⟨hB2, hC2, hA2⟩ := trial_index clock2 N s2 ha' hb2 hc2 i hi _ hx2
      exact ⟨hA2.trans hA.symm, hB2.trans hB.symm, hC2.trans hC.symm⟩
    · obtain ⟨m1, m2, m3⟩ := trial_length clock2 N s2 ha' hb2 hc2
      refine ⟨?_, ?_, ?_⟩ <;>
        rw [List.getElem?_eq_none (by omega), List.getElem?_eq_none (by omega)]
  refine ⟨?_, ?_, l1, l2, l3, hidx, ?_, ?_, ?_⟩
  · rw [copyBlock_eq]
    exact fill_getD_self s.a s.c ha hc
  · rw [copyPass_eq]
    exact fill_getD_self s.a s.c ha hc
  · apply List.ext_getElem?
    intro i
    exact (hsame i).1
  · apply List.ext_getElem?
    intro i
    exact (hsame i).2.1
  · apply List.ext_getElem?
    intro i
    exact (hsame i).2.2

theorem trial_spec_witness :
    (sampleState [1, 2] [7, 7] [9, 9] : State ℚ).a.length = 2 ∧
    (sampleState [1, 2] [0, 0] [5, 5] : State ℚ).a = (sampleState [1, 2] [7, 7] [9, 9] : State ℚ).a ∧
    ((copyBlock (fun n => (n : ℚ)) 2 (sampleState [1, 2] [7, 7] [9, 9] : State ℚ)).c
        = (sampleState [1, 2] [7, 7] [9, 9] : State ℚ).a ∧
      (copyPass 2 (sampleState [1, 2] [7, 7] [9, 9] : State ℚ)).c = (sampleState [1, 2] [7, 7] [9, 9] : State ℚ).a ∧
      (trial (fun n => (n : ℚ)) 2 (sampleState [1, 2] [7, 7] [9, 9] : State ℚ)).a.length = 2 ∧
      (trial (fun n => (n : ℚ)) 2 (sampleState [1, 2] [7, 7] [9, 9] : State ℚ)).b.length = 2 ∧
      (trial (fun n => (n : ℚ)) 2 (sampleState [1, 2] [7, 7] [9, 9] : State ℚ)).c.length = 2 ∧
      (∀ i, i < 2 → ∃ x y z w : ℚ,
        (sampleState [1, 2] [7, 7] [9, 9] : State ℚ).a[i]? = some x ∧
        (trial (fun n => (n : ℚ)) 2 (sampleState [1, 2] [7, 7] [9, 9] : State ℚ)).b[i]? = some y ∧
        (trial (fun n => (n : ℚ)) 2 (sampleState [1, 2] [7, 7] [9, 9] : State ℚ)).c[i]? = some z ∧
        (trial (fun n => (n : ℚ)) 2 (sampleState [1, 2] [7, 7] [9, 9] : State ℚ)).a[i]? = some w ∧
        y = 3 * x ∧ z = x + y ∧ w = y + 3 * z) ∧
      (trial (fun _ => (0 : ℚ)) 2 (sampleState [1, 2] [0, 0] [5, 5] : State ℚ)).a
        = (trial (fun n => (n : ℚ)) 2 (sampleState [1, 2] [7, 7] [9, 9] : State ℚ)).a ∧
      (trial (fun _ => (0 : ℚ)) 2 (sampleState [1, 2] [0, 0] [5, 5] : State ℚ)).b
        = (trial (fun n => (n : ℚ)) 2 (sampleState [1, 2] [7, 7] [9, 9] : State ℚ)).b ∧
      (trial (fun _ => (0 : ℚ)) 2 (sampleState [1, 2] [0, 0] [5, 5] : State ℚ)).c
        = (trial (fun n => (n : ℚ)) 2 (sampleState [1, 2] [7, 7] [9, 9] : State ℚ)).c) :=
  ⟨rfl, rfl,
    trial_spec (fun n => (n : ℚ)) (fun _ => (0 : ℚ)) 2 (sampleState [1, 2] [7, 7] [9, 9] : State ℚ)
      (sampleState [1, 2] [0, 0] [5, 5] : State ℚ) rfl rfl rfl rfl rfl rfl⟩


/-- C4: for each of the four kernels, the best time after `n` trials, started
at the sentinel `1e99` and replaced by a trial's time exactly when that time is
strictly smaller, is at most the elapsed time of every one of the `n` trials;
and the running best does not increase from one trial to the next. -/
theorem best_of_trials {α : Type} [Add α] [Mul α] [OfNat α 0] [OfNat α 1] [OfNat α 2]
    [OfNat α 3] (env : Env α) (N n k : Nat) (hk : k < 4) :
    (trials env.clock N 0 (workspace env N)).best k = sentinel ∧
    ((trials env.clock N (n + 1) (workspace env N)).best k =
      if elapsed env.clock n k < (trials env.clock N n (workspace env N)).best k
      then elapsed env.clock n k else (trials env.clock N n (workspace env N)).best k) ∧
    (trials env.clock N (n + 1) (workspace env N)).best k
      ≤ (trials env.clock N n (workspace env N)).best k ∧
    (trials env.clock N n (workspace env N)).best k ≤ sentinel ∧
    ∀ j, j < n → (trials env.clock N n (workspace env N)).best k ≤ elapsed env.clock j k := by
  obtain ⟨h0, hs⟩ := workspace_timing env N
  have hall : ∀ m : Nat, (trials env.clock N m (workspace env N)).best k ≤ sentinel ∧
      ∀ j, j < m → (trials env.clock N m (workspace env N)).best k ≤ elapsed env.clock j k := by
    intro m
    induction m with
    | zero =>
      refine ⟨le_of_eq (hs k), fun j hj => ?_⟩
      omega
    | succ m ih =>
      obtain ⟨hle, hel⟩ := trials_best_le env.clock N m _ h0 k hk
      refine ⟨le_trans hle ih.1, fun j hj => ?_⟩
      by_cases hjm : j = m
      · rw [hjm]
        exact hel
      · exact le_trans hle (ih.2 j (by omega))
  exact ⟨hs k, trials_best_succ env.clock N n _ h0 k hk,
    (trials_best_le env.clock N n _ h0 k hk).1, (hall n).1, (hall n).2⟩

theorem best_of_trials_witness :
    0 < 4 ∧
    ((trials (sampleEnv 0 0 0 : Env Dbl).clock 2 0 (workspace (sampleEnv 0 0 0 : Env Dbl) 2)).best 0 = sentinel ∧
    ((trials (sampleEnv 0 0 0 : Env Dbl).clock 2 (3 + 1) (workspace (sampleEnv 0 0 0 : Env Dbl) 2)).best 0 =
      if elapsed (sampleEnv 0 0 0 : Env Dbl).clock 3 0
          < (trials (sampleEnv 0 0 0 : Env Dbl).clock 2 3 (workspace (sampleEnv 0 0 0 : Env Dbl) 2)).best 0
      then elapsed (sampleEnv 0 0 0 : Env Dbl).clock 3 0
      else (trials (sampleEnv 0 0 0 : Env Dbl).clock 2 3 (workspace (sampleEnv 0 0 0 : Env Dbl) 2)).best 0) ∧
    (trials (sampleEnv 0 0 0 : Env Dbl).clock 2 (3 + 1) (workspace (sampleEnv 0 0 0 : Env Dbl) 2)).best 0
      ≤ (trials (sampleEnv 0 0 0 : Env Dbl).clock 2 3 (workspace (sampleEnv 0 0 0 : Env Dbl) 2)).best 0 ∧
    (trials (sampleEnv 0 0 0 : Env Dbl).clock 2 3 (workspace (sampleEnv 0 0 0 : Env Dbl) 2)).best 0 ≤ sentinel ∧
    ∀ j, j < 3 → (trials (sampleEnv 0 0 0 : Env Dbl).clock 2 3 (workspace (sampleEnv 0 0 0 : Env Dbl) 2)).best 0
      ≤ elapsed (sampleEnv 0 0 0 : Env Dbl).clock j 0) :=
  ⟨by decide, best_of_trials (sampleEnv 0 0 0 : Env Dbl) 2 3 0 (by decide)⟩

/-! ## Arguments -/

theorem digitsValue_of_startsNoDigit (cs : List Char) (h : startsNoDigit cs = true) :
    digitsValue cs 0 = 0 := by
  cases cs with
  | nil => rfl
  | cons ch rest =>
    have hd : ch.isDigit = false := by simpa [startsNoDigit] using h
    simp [digitsValue, hd]

/-- A string with no number in it converts to 0. -/
theorem parseDecimal_of_unparsable (s : String) (h : unparsable s = true) :
    parseDecimal s = 0 := by
  unfold unparsable at h
  unfold parseDecimal
  split at h
  · simp [digitsValue_of_startsNoDigit _ h]
  · simp [digitsValue_of_startsNoDigit _ h]
  · simp only [Int.natCast_eq_zero]
    exact digitsValue_of_startsNoDigit _ h

theorem atoll_of_unparsable (s : String) (h : unparsable s = true) : atoll s = 0 := by
  unfold atoll
  rw [parseDecimal_of_unparsable s h]
  decide

theorem atoi_of_unparsable (s : String) (h : unparsable s = true) : atoi s = 0 := by
  unfold atoi
  rw [parseDecimal_of_unparsable s h]
  decide

theorem main_status (env : Env Dbl) :
    (main env).status = if env.rcA ≠ 0 ∨ env.rcB ≠ 0 ∨ env.rcC ≠ 0 then 1 else 0 := by
  unfold main
  simp only []
  split <;> rfl

theorem main_err (env : Env Dbl) :
    (main env).err =
      if env.rcA ≠ 0 ∨ env.rcB ≠ 0 ∨ env.rcC ≠ 0 then ["alloc failed\n"] else [] := by
  unfold main
  simp only []
  split <;> rfl

/-- C5, as the code has it: an omitted argument 1 gives footprint 1024 and an
omitted argument 2 gives 5 trials; an argument that is present but is not a
number gives 0 (footprint 0, hence the floor count 1000000; trial count 0), not
the default.  In none of these cases is an error raised: with the three
allocations successful the exit status is 0 and the error stream is empty. -/
theorem arg_defaults (env : Env Dbl) :
    (env.argv.length ≤ 1 → resolveMb env.argv = 1024) ∧
    (env.argv.length ≤ 2 → resolveNtimes env.argv = 5) ∧
    (∀ s, env.argv[1]? = some s → unparsable s = true →
      resolveMb env.argv = 0 ∧ resolveN (resolveMb env.argv) = 1000000) ∧
    (∀ s, env.argv[2]? = some s → unparsable s = true → resolveNtimes env.argv = 0) ∧
    (env.rcA = 0 → env.rcB = 0 → env.rcC = 0 → (main env).status = 0 ∧ (main env).err = []) := by
  refine ⟨?_, ?_, ?_, ?_, ?_⟩
  · intro h
    unfold resolveMb
    rw [if_neg (by omega)]
  · intro h
    unfold resolveNtimes
    rw [if_neg (by omega)]
  · intro s hs hu
    have hlen : 1 < env.argv.length := (List.getElem?_eq_some.mp hs).1
    have hget : env.argv.getD 1 "" = s := by
      rw [List.getD_eq_getElem?_getD, hs]
      rfl
    have hmb : resolveMb env.argv = 0 := by
      unfold resolveMb
      rw [if_pos hlen, hget, atoll_of_unparsable s hu]
      decide
    rw [hmb]
    exact ⟨rfl, by decide⟩
  · intro s hs hu
    have hlen : 2 < env.argv.length := (List.getElem?_eq_some.mp hs).1
    have hget : env.argv.getD 2 "" = s := by
      rw [List.getD_eq_getElem?_getD, hs]
      rfl
    unfold resolveNtimes
    rw [if_pos hlen, hget, atoi_of_unparsable s hu]
  · intro hA hB hC
    have hno : ¬ (env.rcA ≠ 0 ∨ env.rcB ≠ 0 ∨ env.rcC ≠ 0) := by
      rw [hA, hB, hC]
      decide
    rw [main_status, main_err, if_neg hno, if_neg hno]
    exact ⟨rfl, rfl⟩

theorem arg_defaults_witness :
    (resolveMb ({ sampleEnv 0 0 0 with argv := ["mini_stream"] } : Env Dbl).argv = 1024 ∧
      resolveNtimes ({ sampleEnv 0 0 0 with argv := ["mini_stream", "64"] } : Env Dbl).argv = 5) ∧
    (unparsable "abc" = true ∧
      resolveMb ({ sampleEnv 0 0 0 with argv := ["mini_stream", "abc", "x"] } : Env Dbl).argv = 0 ∧
      resolveN (resolveMb ({ sampleEnv 0 0 0 with argv := ["mini_stream", "abc", "x"] } : Env Dbl).argv)
        = 1000000) ∧
    (unparsable "x" = true ∧
      resolveNtimes ({ sampleEnv 0 0 0 with argv := ["mini_stream", "abc", "x"] } : Env Dbl).argv = 0) ∧
    ((main ({ sampleEnv 0 0 0 with argv := ["mini_stream", "abc", "x"] } : Env Dbl)).status = 0 ∧
      (main ({ sampleEnv 0 0 0 with argv := ["mini_stream", "abc", "x"] } : Env Dbl)).err = []) :=
  ⟨⟨(arg_defaults { sampleEnv 0 0 0 with argv := ["mini_stream"] }).1 (by decide),
      (arg_defaults { sampleEnv 0 0 0 with argv := ["mini_stream", "64"] }).2.1 (by decide)⟩,
    ⟨by decide,
      (arg_defaults { sampleEnv 0 0 0 with argv := ["mini_stream", "abc", "x"] }).2.2.1
        "abc" rfl (by decide)⟩,
    ⟨by decide,
      (arg_defaults { sampleEnv 0 0 0 with argv := ["mini_stream", "abc", "x"] }).2.2.2.1
        "x" rfl (by decide)⟩,
    (arg_defaults { sampleEnv 0 0 0 with argv := ["mini_stream", "abc", "x"] }).2.2.2.2
      rfl rfl rfl⟩

/-- C5 as stated fails: the argument `abc` is not a number, yet the footprint
it resolves to is 0, not 1024, and the trial count it resolves to is 0, not 5. -/
theorem arg_defaults_unparsable_counterexample :
    unparsable "abc" = true ∧
    resolveMb ["mini_stream", "abc"] = 0 ∧ resolveMb ["mini_stream", "abc"] ≠ 1024 ∧
    resolveNtimes ["mini_stream", "64", "abc"] = 0 ∧
    resolveNtimes ["mini_stream", "64", "abc"] ≠ 5 := by
  decide

/-! ## Allocation failure -/

/-- C6: if any of the three allocations fails, `main` writes the diagnostic to
the error stream, writes nothing to standard output, reads the clock not once
(no kernel is timed or run) and returns a non-zero status; if all three succeed
it returns 0.  The status is non-zero exactly when an allocation failed. -/
theorem alloc_failure (env : Env Dbl) :
    (env.rcA ≠ 0 ∨ env.rcB ≠ 0 ∨ env.rcC ≠ 0 →
      (main env).err = ["alloc failed\n"] ∧ (main env).out = [] ∧
      (main env).clockReads = 0 ∧ (main env).status = 1 ∧ (main env).status ≠ 0) ∧
    (env.rcA = 0 ∧ env.rcB = 0 ∧ env.rcC = 0 →
      (main env).status = 0 ∧ (main env).err = [] ∧ (main env).out.length = 5) ∧
    ((main env).status ≠ 0 ↔ (env.rcA ≠ 0 ∨ env.rcB ≠ 0 ∨ env.rcC ≠ 0)) := by
  refine ⟨?_, ?_, ?_⟩
  · intro h
    unfold main
    simp only []
    rw [if_pos h]
    exact ⟨rfl, rfl, rfl, rfl, by decide⟩
  · rintro ⟨hA, hB, hC⟩
    have hno : ¬ (env.rcA ≠ 0 ∨ env.rcB ≠ 0 ∨ env.rcC ≠ 0) := by
      rw [hA, hB, hC]
      decide
    unfold main
    simp only []
    rw [if_neg hno]
    exact ⟨rfl, rfl, rfl⟩
  · rw [main_status]
    split
    · next h => exact ⟨fun _ => h, fun _ => by decide⟩
    · next h => exact ⟨fun h0 => absurd rfl h0, fun h1 => absurd h1 h⟩

theorem alloc_failure_witness :
    ((main (sampleEnv 0 12 0)).err = ["alloc failed\n"] ∧ (main (sampleEnv 0 12 0)).out = [] ∧
      (main (sampleEnv 0 12 0)).clockReads = 0 ∧ (main (sampleEnv 0 12 0)).status = 1 ∧
      (main (sampleEnv 0 12 0)).status ≠ 0) ∧
    ((main (sampleEnv 0 0 0)).status = 0 ∧ (main (sampleEnv 0 0 0)).err = [] ∧
      (main (sampleEnv 0 0 0)).out.length = 5) :=
  ⟨(alloc_failure (sampleEnv 0 12 0)).1 (by decide),
    (alloc_failure (sampleEnv 0 0 0)).2.1 (by decide)⟩

/-! ## Bandwidth -/

/-- C7: for every `N` and every positive best time `t` of kernel `k`, the
figure the report prints for that kernel is `(bytes_per_element * N) / t /
(1024*1024)`, where `bytes_per_element` is 8 bytes times the number of arrays
the kernel reads plus writes: 16 for Copy and Scale, 24 for Add and Triad. -/
theorem bandwidth_formula {α : Type} (mb : Nat) (ntimes : Int) (threads N : Nat) (s : State α)
    (k : Nat) (hk : k < 4) (t : ℚ) (ht : 0 < t) (hb : s.best k = t) :
    (report mb ntimes threads N s)[k + 1]? =
      some (OutLine.rate (kernelLabel k)
        (((bytesPerElement k : ℚ) * (N : ℚ)) / t / (1024 * 1024))) ∧
    bytesPerElement k = 8 * ((kernelReads k).length + (kernelWrites k).length) ∧
    bytesPerElement k = (if k < 2 then 16 else 24) ∧
    0 ≤ ((bytesPerElement k : ℚ) * (N : ℚ)) / t / (1024 * 1024) := by
  have hpos : 0 ≤ ((bytesPerElement k : ℚ) * (N : ℚ)) / t / (1024 * 1024) := by
    positivity
  refine ⟨?_, rfl, ?_, hpos⟩
  · have h4 : k = 0 ∨ k = 1 ∨ k = 2 ∨ k = 3 := by omega
    rcases h4 with rfl | rfl | rfl | rfl
    all_goals
      subst hb
      simp [report, kernelLabel, bytesPerElement, kernelReads, kernelWrites, sizeof_double,
        State.best, bw16, bw24]
      try norm_num
  · have h4 : k = 0 ∨ k = 1 ∨ k = 2 ∨ k = 3 := by omega
    rcases h4 with rfl | rfl | rfl | rfl <;> decide

theorem bandwidth_formula_witness :
    2 < 4 ∧ (0 : ℚ) < 2 ∧ ({ sampleState [] [] [] with best_add := 2 } : State Dbl).best 2 = 2 ∧
    ((report 64 3 1 2796160 ({ sampleState [] [] [] with best_add := 2 } : State Dbl))[2 + 1]? =
      some (OutLine.rate (kernelLabel 2)
        (((bytesPerElement 2 : ℚ) * ((2796160 : Nat) : ℚ)) / 2 / (1024 * 1024))) ∧
    bytesPerElement 2 = 8 * ((kernelReads 2).length + (kernelWrites 2).length) ∧
    bytesPerElement 2 = (if 2 < 2 then 16 else 24) ∧
    0 ≤ ((bytesPerElement 2 : ℚ) * ((2796160 : Nat) : ℚ)) / 2 / (1024 * 1024)) :=
  ⟨by decide, two_pos, rfl,
    bandwidth_formula 64 3 1 2796160 ({ sampleState [] [] [] with best_add := 2 } : State Dbl) 2 (by decide) 2
      two_pos rfl⟩

end MiniStream
